import Mathlib

/-!
# Verification of `scripts/build-contrib.js`

A shallow embedding of the contribution-calendar build script and proofs of
the specified properties of its components.

Modelling conventions:

* A Calendar Date ("YYYY-MM-DD" string in UTC) is modelled as an integer day
  number (days since the epoch).  The script only ever produces date keys via
  the injective formatter `iso(d) = d.toISOString().slice(0, 10)` and steps
  dates with `setDate(getDate() + 1)` (one day), so the string keys are in
  bijection with day numbers; where a date appears inside an output string we
  render the day number in decimal, standing for its "YYYY-MM-DD" form.
* A JavaScript object used as a date → count map is modelled as an
  association list `List (Int × Nat)` in property-insertion order, which is
  the order `Object.entries` / `Object.values` enumerate; lookups
  (`base[date]`) are modelled with `List.lookup`.  Objects built by the
  script never hold duplicate keys.
* Activity counts are non-negative integers (`Nat`).  The quantile indices
  `Math.floor((arr.length - 1) * p)` for p = 0.25, 0.5, 0.75 are computed in
  binary floating point, which is exact for every array length a JavaScript
  array can have, so they are modelled as exact natural-number divisions.
* HTTP responses are modelled as records carrying the fields the script
  reads (`ok`, `status`, the body text, and the parsed JSON payload); a
  `throw` is modelled as `Except.error` carrying the message string.
-/

/-- Day-of-week of a day number, `getUTCDay()` style: 0 = Sunday .. 6 =
Saturday.  Day 0 (1970-01-01) was a Thursday, hence the offset 4. -/
def dow (d : Int) : Int := (d + 4) % 7

/-- The five fill colors, light to dark, of `renderSVG`'s `palette` array. -/
def palette : List String := ["#ebedf0", "#c6e48b", "#7bc96f", "#239a3b", "#196127"]

/-- An association-list map read as a partial function, as JavaScript's
`obj[key]` (`undefined` becomes `none`). -/
def toMap (l : List (Int × Nat)) : Int → Option Nat := fun d => List.lookup d l

/-- `Object.values(values).sort((a, b) => a - b)`: the counts of the map,
sorted ascending. -/
def sortedCounts (values : List (Int × Nat)) : List Nat :=
  (values.map Prod.snd).mergeSort (fun a b => decide (a ≤ b))

/-- `q(p) = arr[Math.floor((arr.length - 1) * p)]` over the sorted counts,
for `p = num / den`.  For the empty map JavaScript reads `arr[-1]`
(`undefined`); that value is never compared against any entry (the map has
none), so the default 0 here is unobservable. -/
def quantile (values : List (Int × Nat)) (num den : Nat) : Nat :=
  let arr := sortedCounts values
  arr.getD ((arr.length - 1) * num / den) 0

/-- The body of `computeLevels`' loop: the sequence of four independent `if`
statements rewriting `lvl`, starting from 0. -/
def levelOf (q1 q2 q3 v : Nat) : Nat :=
  let lvl : Nat := 0
  let lvl := if 0 < v ∧ v ≤ q1 then 1 else lvl
  let lvl := if q1 < v ∧ v ≤ q2 then 2 else lvl
  let lvl := if q2 < v ∧ v ≤ q3 then 3 else lvl
  let lvl := if q3 < v then 4 else lvl
  lvl

/-- `computeLevels(values)`: quantile cut points `q1 = q(0.25)`,
`q2 = q(0.5)`, `q3 = q(0.75)` over the sorted counts, then one level per
entry of the map, keys unchanged. -/
def computeLevels (values : List (Int × Nat)) : List (Int × Nat) :=
  let q1 := quantile values 1 4
  let q2 := quantile values 1 2
  let q3 := quantile values 3 4
  values.map (fun kv => (kv.1, levelOf q1 q2 q3 kv.2))

/-- The bucketization rule as the specification words it: level 0 if v = 0;
else level 1 if v ≤ q1; level 2 if q1 < v ≤ q2; level 3 if q2 < v ≤ q3;
level 4 if v > q3.  Stated with nested conditionals, to be compared with the
source's sequence of independent `if`s (`levelOf`). -/
def specLevel (q1 q2 q3 v : Nat) : Nat :=
  if v = 0 then 0
  else if v ≤ q1 then 1
  else if v ≤ q2 then 2
  else if v ≤ q3 then 3
  else 4

/-- The quantile cut point as the specification words it: sort the counts
ascending (here: insertion sort, any correct ascending sort gives the same
list) and take the entry at index `floor((n - 1) * p)` with `p = num / den`. -/
def specQuantile (values : List (Int × Nat)) (num den : Nat) : Nat :=
  let arr := List.insertionSort (· ≤ ·) (values.map Prod.snd)
  arr.getD ((arr.length - 1) * num / den) 0

theorem sortedCounts_sorted (values : List (Int × Nat)) :
    List.Sorted (· ≤ ·) (sortedCounts values) := by
  have h := @List.sorted_mergeSort Nat (fun a b => decide (a ≤ b))
    (by intro a b c hab hbc; simp only [decide_eq_true_eq] at *; omega)
    (by intro a b; simp only [Bool.or_eq_true, decide_eq_true_eq]; omega)
    (values.map Prod.snd)
  exact h.imp (by simp only [decide_eq_true_eq]; exact fun hab => hab)

theorem sortedCounts_length (values : List (Int × Nat)) :
    (sortedCounts values).length = values.length := by
  simp [sortedCounts]

theorem sortedCounts_eq_insertionSort (values : List (Int × Nat)) :
    sortedCounts values = List.insertionSort (· ≤ ·) (values.map Prod.snd) := by
  refine List.eq_of_perm_of_sorted ?_ (sortedCounts_sorted values)
    (List.sorted_insertionSort _ _)
  exact (List.mergeSort_perm _ _).trans (List.perm_insertionSort _ _).symm

theorem sorted_getD_mono {l : List Nat} (hs : List.Sorted (· ≤ ·) l) {i j : Nat}
    (hij : i ≤ j) (hj : j < l.length) : l.getD i 0 ≤ l.getD j 0 := by
  have hi : i < l.length := lt_of_le_of_lt hij hj
  rw [List.getD_eq_getElem l 0 hi, List.getD_eq_getElem l 0 hj]
  rcases Nat.lt_or_ge i j with h | h
  · have := List.pairwise_iff_get.mp hs ⟨i, hi⟩ ⟨j, hj⟩ h
    simpa using this
  · have hij' : i = j := Nat.le_antisymm hij h
    subst hij'
    exact Nat.le_refl _

theorem quantile_q1_le_q2 (values : List (Int × Nat)) :
    quantile values 1 4 ≤ quantile values 1 2 := by
  unfold quantile
  rcases Nat.eq_zero_or_pos (sortedCounts values).length with h0 | hpos
  · rw [List.length_eq_zero.mp h0]; simp
  · apply sorted_getD_mono (sortedCounts_sorted values)
    · omega
    · omega

theorem quantile_q2_le_q3 (values : List (Int × Nat)) :
    quantile values 1 2 ≤ quantile values 3 4 := by
  unfold quantile
  rcases Nat.eq_zero_or_pos (sortedCounts values).length with h0 | hpos
  · rw [List.length_eq_zero.mp h0]; simp
  · apply sorted_getD_mono (sortedCounts_sorted values)
    · omega
    · omega

theorem levelOf_eq_specLevel {q1 q2 q3 : Nat} (h12 : q1 ≤ q2) (h23 : q2 ≤ q3)
    (v : Nat) : levelOf q1 q2 q3 v = specLevel q1 q2 q3 v := by
  simp only [levelOf, specLevel]
  split_ifs <;> omega

theorem levelOf_le_four (q1 q2 q3 v : Nat) : levelOf q1 q2 q3 v ≤ 4 := by
  simp only [levelOf]
  split_ifs <;> omega

theorem levelOf_eq_zero_iff (q1 q2 q3 v : Nat) :
    levelOf q1 q2 q3 v = 0 ↔ v = 0 := by
  constructor
  · intro h
    simp only [levelOf] at h
    split_ifs at h
    omega
  · intro h
    subst h
    simp [levelOf]

theorem levelOf_mono {q1 q2 q3 : Nat} (h12 : q1 ≤ q2)
    {v w : Nat} (hvw : v ≤ w) : levelOf q1 q2 q3 v ≤ levelOf q1 q2 q3 w := by
  simp only [levelOf]
  split_ifs <;> omega

/-- C1: `computeLevels` sorts the counts ascending, takes the three quantile
cut points at sorted index `floor((n - 1) * p)` for p = 0.25, 0.5, 0.75, and
assigns to each entry with count v: level 0 if v = 0; else level 1 if
v ≤ q1; level 2 if q1 < v ≤ q2; level 3 if q2 < v ≤ q3; level 4 if v > q3,
with a count equal to a threshold resolved to the lower level. -/
theorem computeLevels_eq_spec (values : List (Int × Nat)) :
    computeLevels values =
      values.map (fun kv =>
        (kv.1, specLevel (specQuantile values 1 4) (specQuantile values 1 2)
          (specQuantile values 3 4) kv.2)) := by
  have hq : ∀ num den : Nat, specQuantile values num den = quantile values num den := by
    intro num den
    simp only [specQuantile, quantile, sortedCounts_eq_insertionSort]
  simp only [hq, computeLevels]
  apply List.map_congr_left
  intro kv _
  rw [levelOf_eq_specLevel (quantile_q1_le_q2 values) (quantile_q2_le_q3 values)]

/-- C2: an entry is assigned level 0 exactly when its count is 0; in
particular when every count is 0 every entry is assigned level 0. -/
theorem computeLevels_zero_iff (values : List (Int × Nat)) (i : Nat)
    (hi : i < values.length) :
    (((computeLevels values).getD i (0, 0)).2 = 0 ↔ (values.getD i (0, 0)).2 = 0) ∧
    ((∀ p ∈ values, p.2 = 0) → ∀ p ∈ computeLevels values, p.2 = 0) := by
  constructor
  · have hlen : i < (computeLevels values).length := by
      simpa [computeLevels] using hi
    rw [List.getD_eq_getElem _ _ hi, List.getD_eq_getElem _ _ hlen]
    simp only [computeLevels, List.getElem_map]
    exact levelOf_eq_zero_iff _ _ _ _
  · intro hall p hp
    simp only [computeLevels, List.mem_map] at hp
    obtain ⟨kv, hkv, rfl⟩ := hp
    have hz : kv.2 = 0 := hall kv hkv
    show levelOf (quantile values 1 4) (quantile values 1 2)
      (quantile values 3 4) kv.2 = 0
    rw [hz]
    exact (levelOf_eq_zero_iff _ _ _ 0).mpr rfl

/-- A concrete two-entry map used to witness the `computeLevels` theorems. -/
def sampleValues : List (Int × Nat) := [(0, 5), (1, 0)]

theorem computeLevels_zero_iff_witness :
    0 < sampleValues.length ∧
    ((((computeLevels sampleValues).getD 0 (0, 0)).2 = 0 ↔
        (sampleValues.getD 0 (0, 0)).2 = 0) ∧
      ((∀ p ∈ sampleValues, p.2 = 0) → ∀ p ∈ computeLevels sampleValues, p.2 = 0)) :=
  ⟨by decide, computeLevels_zero_iff sampleValues 0 (by decide)⟩

/-- C8: the level assigned by `computeLevels` is monotonically non-decreasing
in the raw count: entries with counts v₁ ≤ v₂ receive levels l₁ ≤ l₂. -/
theorem computeLevels_mono (values : List (Int × Nat)) (i j : Nat)
    (hi : i < values.length) (hj : j < values.length)
    (hv : (values.getD i (0, 0)).2 ≤ (values.getD j (0, 0)).2) :
    ((computeLevels values).getD i (0, 0)).2 ≤ ((computeLevels values).getD j (0, 0)).2 := by
  have hi' : i < (computeLevels values).length := by simpa [computeLevels] using hi
  have hj' : j < (computeLevels values).length := by simpa [computeLevels] using hj
  rw [List.getD_eq_getElem _ _ hi', List.getD_eq_getElem _ _ hj']
  simp only [computeLevels, List.getElem_map]
  apply levelOf_mono (quantile_q1_le_q2 values)
  rw [List.getD_eq_getElem _ _ hi, List.getD_eq_getElem _ _ hj] at hv
  exact hv

theorem computeLevels_mono_witness :
    (1 < sampleValues.length ∧
      (sampleValues.getD 1 (0, 0)).2 ≤ (sampleValues.getD 0 (0, 0)).2) ∧
    ((computeLevels sampleValues).getD 1 (0, 0)).2 ≤
      ((computeLevels sampleValues).getD 0 (0, 0)).2 :=
  ⟨⟨by decide, by decide⟩,
    computeLevels_mono sampleValues 1 0 (by decide) (by decide) (by decide)⟩

theorem lookup_mem {d : Int} {v : Nat} :
    ∀ {l : List (Int × Nat)}, toMap l d = some v → (d, v) ∈ l := by
  intro l
  induction l with
  | nil => intro h; simp [toMap, List.lookup] at h
  | cons p rest ih =>
    obtain ⟨k, b⟩ := p
    intro h
    simp only [toMap, List.lookup] at h
    cases hkd : (d == k) with
    | false =>
      rw [hkd] at h
      exact List.mem_cons_of_mem _ (ih h)
    | true =>
      rw [hkd] at h
      have hk : d = k := by simpa using hkd
      have hb : b = v := by simpa using h
      subst hk
      subst hb
      exact List.mem_cons_self _ _

/-- C10: `computeLevels` preserves the key list of its input exactly, every
assigned level lies in {0,1,2,3,4}, and looking a level up in its result
(with default 0 for a missing key) always indexes the 5-entry palette in
bounds. -/
theorem computeLevels_keys_range (values : List (Int × Nat)) :
    (computeLevels values).map Prod.fst = values.map Prod.fst ∧
    (∀ p ∈ computeLevels values, p.2 ≤ 4) ∧
    (∀ d : Int, (toMap (computeLevels values) d).getD 0 < palette.length) := by
  refine ⟨?_, ?_, ?_⟩
  · simp [computeLevels]
  · intro p hp
    simp only [computeLevels, List.mem_map] at hp
    obtain ⟨kv, _, rfl⟩ := hp
    exact levelOf_le_four _ _ _ _
  · intro d
    show (toMap (computeLevels values) d).getD 0 < 5
    rcases hl : toMap (computeLevels values) d with _ | lvl
    · simp
    · have hmem : (d, lvl) ∈ computeLevels values := lookup_mem hl
      simp only [computeLevels, List.mem_map] at hmem
      obtain ⟨kv, _, hkv⟩ := hmem
      have hlvl : lvl = levelOf (quantile values 1 4) (quantile values 1 2)
          (quantile values 3 4) kv.2 := by
        have := congrArg Prod.snd hkv
        simpa using this.symm
      have hle := levelOf_le_four (quantile values 1 4) (quantile values 1 2)
        (quantile values 3 4) kv.2
      simp only [Option.getD_some]
      omega

/-- One merge step: `if (base[date] !== undefined) base[date] += cnt;`.
Updating the (unique) entry holding a present key is expressed as a map over
the entries that bumps the matching key and leaves every other entry alone;
an absent key leaves the list unchanged. -/
def bumpKey (base : List (Int × Nat)) (k : Int) (c : Nat) : List (Int × Nat) :=
  base.map (fun p => if p.1 = k then (p.1, p.2 + c) else p)

/-- `mergeCalendars(base, gh, gl)`: one `for (const [date, cnt] of
Object.entries(gh))` loop, then the same loop over `gl`, both adding into
`base` only at keys `base` already has. -/
def mergeCalendars (base gh gl : List (Int × Nat)) : List (Int × Nat) :=
  let afterGh := gh.foldl (fun b e => bumpKey b e.1 e.2) base
  gl.foldl (fun b e => bumpKey b e.1 e.2) afterGh

/-- Total count the entries of a fetched mapping carry for date `d`. -/
def sumAt (entries : List (Int × Nat)) (d : Int) : Nat :=
  ((entries.filter (fun e => e.1 == d)).map Prod.snd).sum

theorem sumAt_cons (e : Int × Nat) (rest : List (Int × Nat)) (d : Int) :
    sumAt (e :: rest) d = (if e.1 = d then e.2 else 0) + sumAt rest d := by
  simp only [sumAt, List.filter_cons]
  by_cases h : e.1 = d
  · simp [h]
  · simp [h]

theorem sumAt_eq_zero_of_not_mem {l : List (Int × Nat)} {k : Int}
    (h : k ∉ l.map Prod.fst) : sumAt l k = 0 := by
  induction l with
  | nil => simp [sumAt]
  | cons p rest ih =>
    simp only [List.map_cons, List.mem_cons] at h
    push_neg at h
    rw [sumAt_cons]
    rw [ih h.2]
    simp [Ne.symm h.1]

theorem foldl_bump_eq (entries : List (Int × Nat)) (base : List (Int × Nat)) :
    entries.foldl (fun b e => bumpKey b e.1 e.2) base
      = base.map (fun p => (p.1, p.2 + sumAt entries p.1)) := by
  induction entries generalizing base with
  | nil =>
    simp [sumAt]
  | cons e rest ih =>
    simp only [List.foldl_cons]
    rw [ih]
    simp only [bumpKey, List.map_map]
    apply List.map_congr_left
    intro p _
    simp only [Function.comp_apply]
    rw [sumAt_cons]
    by_cases hpk : p.1 = e.1
    · rw [if_pos hpk, if_pos hpk.symm]
      show (p.1, (p.2 + e.2) + sumAt rest p.1) = (p.1, p.2 + (e.2 + sumAt rest p.1))
      rw [Nat.add_assoc]
    · rw [if_neg hpk, if_neg (fun hh => hpk hh.symm)]
      show (p.1, p.2 + sumAt rest p.1) = (p.1, p.2 + (0 + sumAt rest p.1))
      rw [Nat.zero_add]

theorem mergeCalendars_eq_map (base gh gl : List (Int × Nat)) :
    mergeCalendars base gh gl
      = base.map (fun p => (p.1, p.2 + (sumAt gh p.1 + sumAt gl p.1))) := by
  simp only [mergeCalendars, foldl_bump_eq]
  simp only [List.map_map]
  apply List.map_congr_left
  intro p _
  simp [Function.comp, Nat.add_assoc]

theorem lookup_map_add (s : Int → Nat) (l : List (Int × Nat)) (d : Int) :
    toMap (l.map (fun p => (p.1, p.2 + s p.1))) d
      = (toMap l d).map (fun v => v + s d) := by
  induction l with
  | nil => simp [toMap]
  | cons p rest ih =>
    obtain ⟨k, b⟩ := p
    simp only [toMap, List.map_cons, List.lookup] at ih ⊢
    cases hkd : (d == k) with
    | false => simpa using ih
    | true =>
      have hk : d = k := by simpa using hkd
      subst hk
      simp

theorem sumAt_eq_lookup {l : List (Int × Nat)} (h : (l.map Prod.fst).Nodup)
    (d : Int) : sumAt l d = (toMap l d).getD 0 := by
  induction l with
  | nil => simp [sumAt, toMap]
  | cons p rest ih =>
    obtain ⟨k, b⟩ := p
    simp only [List.map_cons, List.nodup_cons] at h
    rw [sumAt_cons]
    simp only [toMap, List.lookup]
    cases hkd : (d == k) with
    | false =>
      have hne : ¬(k = d) := by
        intro hh
        subst hh
        simp at hkd
      rw [if_neg hne, Nat.zero_add]
      exact ih h.2
    | true =>
      have hk : d = k := by simpa using hkd
      subst hk
      rw [if_pos rfl, sumAt_eq_zero_of_not_mem h.1]
      simp

theorem sumAt_cons_not_base {base : List (Int × Nat)} {k : Int}
    (h : k ∉ base.map Prod.fst) (c : Nat) (entries : List (Int × Nat))
    (p : Int × Nat) (hp : p ∈ base) :
    sumAt ((k, c) :: entries) p.1 = sumAt entries p.1 := by
  rw [sumAt_cons]
  have hne : ¬((k, c).1 = p.1) := by
    intro hh
    apply h
    have hh' : k = p.1 := hh
    rw [hh']
    exact List.mem_map_of_mem Prod.fst hp
  rw [if_neg hne, Nat.zero_add]

/-- C3: for a zeroed base range and two fetched mappings (each with
duplicate-free keys, as JavaScript objects have), `mergeCalendars` binds
every date in the base key set to the sum of the `gh` count and the `gl`
count for that date, each taken as 0 when absent; the key list is unchanged
(no extension), a date absent from the base key set stays absent, and an
entry whose date is outside the base key set has no effect on the result at
all. -/
theorem mergeCalendars_spec (base gh gl : List (Int × Nat)) (d k : Int)
    (c : Nat) (hgh : (gh.map Prod.fst).Nodup) (hgl : (gl.map Prod.fst).Nodup) :
    ((mergeCalendars base gh gl).map Prod.fst = base.map Prod.fst) ∧
    (toMap base d = some 0 →
      toMap (mergeCalendars base gh gl) d
        = some ((toMap gh d).getD 0 + (toMap gl d).getD 0)) ∧
    (toMap base d = none → toMap (mergeCalendars base gh gl) d = none) ∧
    (k ∉ base.map Prod.fst →
      mergeCalendars base ((k, c) :: gh) gl = mergeCalendars base gh gl ∧
      mergeCalendars base gh ((k, c) :: gl) = mergeCalendars base gh gl) := by
  have hmap := mergeCalendars_eq_map base gh gl
  have hlook : ∀ e : Int,
      toMap (mergeCalendars base gh gl) e
        = (toMap base e).map (fun v => v + (sumAt gh e + sumAt gl e)) := by
    intro e
    rw [hmap]
    exact lookup_map_add (fun x => sumAt gh x + sumAt gl x) base e
  refine ⟨?_, ?_, ?_, ?_⟩
  · rw [hmap]
    simp
  · intro hd
    rw [hlook d, hd]
    rw [sumAt_eq_lookup hgh, sumAt_eq_lookup hgl]
    simp
  · intro hd
    rw [hlook d, hd]
    rfl
  · intro hk
    constructor
    · rw [mergeCalendars_eq_map, mergeCalendars_eq_map]
      apply List.map_congr_left
      intro p hp
      rw [sumAt_cons_not_base hk c gh p hp]
    · rw [mergeCalendars_eq_map, mergeCalendars_eq_map]
      apply List.map_congr_left
      intro p hp
      rw [sumAt_cons_not_base hk c gl p hp]

/-- Concrete maps used to witness `mergeCalendars_spec`: a zeroed two-day
base, one fetched map with an in-range and an out-of-range date, one fetched
map with an in-range date. -/
def sampleBase : List (Int × Nat) := [(0, 0), (1, 0)]

def sampleGh : List (Int × Nat) := [(0, 2), (5, 9)]

def sampleGl : List (Int × Nat) := [(1, 3)]

theorem mergeCalendars_spec_witness :
    ((sampleGh.map Prod.fst).Nodup ∧ (sampleGl.map Prod.fst).Nodup) ∧
    (((mergeCalendars sampleBase sampleGh sampleGl).map Prod.fst
        = sampleBase.map Prod.fst) ∧
      (toMap sampleBase 0 = some 0 →
        toMap (mergeCalendars sampleBase sampleGh sampleGl) 0
          = some ((toMap sampleGh 0).getD 0 + (toMap sampleGl 0).getD 0)) ∧
      (toMap sampleBase 0 = none →
        toMap (mergeCalendars sampleBase sampleGh sampleGl) 0 = none) ∧
      ((5 : Int) ∉ sampleBase.map Prod.fst →
        mergeCalendars sampleBase ((5, 9) :: sampleGh) sampleGl
          = mergeCalendars sampleBase sampleGh sampleGl ∧
        mergeCalendars sampleBase sampleGh ((5, 9) :: sampleGl)
          = mergeCalendars sampleBase sampleGh sampleGl)) :=
  ⟨⟨by decide, by decide⟩,
    mergeCalendars_spec sampleBase sampleGh sampleGl 0 5 9 (by decide) (by decide)⟩

/-- `dateRangeMap(from, to)`: starting from a copy of `from`, insert
`iso(d) ↦ 0` and step one day while `d <= to`, so the end date itself is
included. -/
def dateRangeMap (f t : Int) : List (Int × Nat) :=
  if h : f ≤ t then (f, 0) :: dateRangeMap (f + 1) t else []
termination_by (t + 1 - f).toNat
decreasing_by
  simp_wf
  omega

theorem dateRangeMap_eq_range :
    ∀ (n : Nat) (f t : Int), f ≤ t → (t - f).toNat = n →
      dateRangeMap f t
        = (List.range (n + 1)).map (fun i : Nat => (f + (i : Int), (0 : Nat))) := by
  intro n
  induction n with
  | zero =>
    intro f t h hn
    rw [dateRangeMap, dif_pos h]
    have h2 : ¬(f + 1 ≤ t) := by omega
    rw [dateRangeMap, dif_neg h2]
    have hr : List.range 1 = [0] := rfl
    rw [hr]
    simp
  | succ n ih =>
    intro f t h hn
    rw [dateRangeMap, dif_pos h, ih (f + 1) t (by omega) (by omega)]
    conv_rhs => rw [List.range_succ_eq_map, List.map_cons, List.map_map]
    congr 1
    · simp
    · apply List.map_congr_left
      intro i _
      simp only [Function.comp_apply, Nat.succ_eq_add_one, Prod.mk.injEq]
      refine ⟨?_, trivial⟩
      push_cast
      omega

theorem dateRangeMap_nil (f t : Int) (h : ¬(f ≤ t)) : dateRangeMap f t = [] := by
  rw [dateRangeMap, dif_neg h]

/-- C4: for `from ≤ to` the key list of `dateRangeMap(from, to)` is exactly
the consecutive calendar dates from `from` through `to` inclusive, every
value is 0, and a date is a key exactly when it lies in the inclusive
range; with `from = today − 364` the key list is exactly the 365 consecutive
dates ending at `today`. -/
theorem dateRangeMap_spec (f t : Int) (h : f ≤ t) :
    ((dateRangeMap f t).map Prod.fst
        = (List.range ((t - f).toNat + 1)).map (fun i : Nat => f + (i : Int))) ∧
    (∀ p ∈ dateRangeMap f t, p.2 = 0) ∧
    (∀ d : Int, d ∈ (dateRangeMap f t).map Prod.fst ↔ (f ≤ d ∧ d ≤ t)) ∧
    ((dateRangeMap (t - 364) t).map Prod.fst
        = (List.range 365).map (fun i : Nat => t - 364 + (i : Int))) ∧
    (dateRangeMap (t - 364) t).length = 365 := by
  have hbase := dateRangeMap_eq_range ((t - f).toNat) f t h rfl
  have hwin := dateRangeMap_eq_range 364 (t - 364) t (by omega) (by omega)
  refine ⟨?_, ?_, ?_, ?_, ?_⟩
  · rw [hbase, List.map_map]
    apply List.map_congr_left
    intro i _
    rfl
  · intro p hp
    rw [hbase] at hp
    simp only [List.mem_map] at hp
    obtain ⟨i, _, rfl⟩ := hp
    rfl
  · intro d
    rw [hbase, List.map_map]
    simp only [List.mem_map, Function.comp_apply, List.mem_range]
    constructor
    · rintro ⟨i, hi, rfl⟩
      omega
    · intro hd
      refine ⟨(d - f).toNat, by omega, by omega⟩
  · rw [hwin, List.map_map]
    apply List.map_congr_left
    intro i _
    rfl
  · rw [hwin]
    simp

theorem dateRangeMap_spec_witness :
    (0 : Int) ≤ 2 ∧
    (((dateRangeMap 0 2).map Prod.fst
        = (List.range (((2 : Int) - 0).toNat + 1)).map (fun i : Nat => (0 : Int) + (i : Int))) ∧
      (∀ p ∈ dateRangeMap 0 2, p.2 = 0) ∧
      (∀ d : Int, d ∈ (dateRangeMap 0 2).map Prod.fst ↔ ((0 : Int) ≤ d ∧ d ≤ 2)) ∧
      ((dateRangeMap ((2 : Int) - 364) 2).map Prod.fst
        = (List.range 365).map (fun i : Nat => (2 : Int) - 364 + (i : Int))) ∧
      (dateRangeMap ((2 : Int) - 364) 2).length = 365) :=
  ⟨by decide, dateRangeMap_spec 0 2 (by decide)⟩

/-- Cell size in pixels, `const cell = 10`. -/
def cell : Nat := 10

/-- Inter-cell gap in pixels, `const gap = 2`. -/
def gap : Nat := 2

/-- Header band height of the richer renderer variant, `const headerH = 26`. -/
def headerH : Nat := 26

/-- The renderer's `start`: `fromDate` shifted back to the nearest previous
Sunday (`start.setDate(start.getDate() - start.getUTCDay())`). -/
def gridStart (fromD : Int) : Int := fromD - dow fromD

/-- The renderer's `end`: `today` shifted forward to the next Saturday
(`end.setDate(end.getDate() + (6 - end.getUTCDay()))`). -/
def gridEnd (todayD : Int) : Int := todayD + (6 - dow todayD)

/-- `weeks = Math.ceil((end - start) / (1000*60*60*24*7)) + 1`.  The
millisecond difference is exactly the day difference times 86400000, so the
quotient is the exact rational day difference over 7, ceiled. -/
def weeks (fromD todayD : Int) : Int :=
  ⌈((gridEnd todayD - gridStart fromD : Int) : ℚ) / 7⌉ + 1

theorem ceil_div_seven (a : Int) : ⌈((a : ℚ)) / 7⌉ = (a + 6) / 7 := by
  have h1 : 7 * ((a + 6) / 7) - 6 ≤ a := by omega
  have h2 : a ≤ 7 * ((a + 6) / 7) := by omega
  have h1q : (7 : ℚ) * (((a + 6) / 7 : Int) : ℚ) - 6 ≤ (a : ℚ) := by exact_mod_cast h1
  have h2q : (a : ℚ) ≤ 7 * (((a + 6) / 7 : Int) : ℚ) := by exact_mod_cast h2
  rw [Int.ceil_eq_iff]
  constructor
  · rw [lt_div_iff₀ (by norm_num : (0 : ℚ) < 7)]
    linarith
  · rw [div_le_iff₀ (by norm_num : (0 : ℚ) < 7)]
    linarith

theorem weeks_eq (fromD todayD : Int) :
    weeks fromD todayD = (gridEnd todayD - gridStart fromD + 6) / 7 + 1 := by
  rw [weeks, ceil_div_seven]

/-- One emitted `<rect>` cell: its date, the level and count drawn, and its
pixel position.  Cell i of the loop is week `i / 7`, weekday `i % 7`, date
`start + i` (the cursor advances one day per cell). -/
structure Cell where
  date : Int
  lvl : Nat
  cnt : Nat
  x : Nat
  y : Nat

/-- The cells emitted by the plain renderer variant (no header band, no
counts; `lvl = levels[key] ?? 0`). -/
def renderCells (levels : List (Int × Nat)) (f t : Int) : List Cell :=
  (List.range ((weeks f t).toNat * 7)).map (fun i : Nat =>
    ⟨gridStart f + (i : Int),
      (toMap levels (gridStart f + (i : Int))).getD 0,
      0,
      gap + (i / 7) * (cell + gap),
      gap + (i % 7) * (cell + gap)⟩)

/-- The cells emitted by the richer renderer variant (`cnt = counts[key] ??
0`, grid shifted down by the header band). -/
def renderCellsRich (levels counts : List (Int × Nat)) (f t : Int) : List Cell :=
  (List.range ((weeks f t).toNat * 7)).map (fun i : Nat =>
    ⟨gridStart f + (i : Int),
      (toMap levels (gridStart f + (i : Int))).getD 0,
      (toMap counts (gridStart f + (i : Int))).getD 0,
      gap + (i / 7) * (cell + gap),
      headerH + gap + (i % 7) * (cell + gap)⟩)

/-- The `<rect>` markup of one cell in the plain variant; tooltip shows the
level.  Indexing the palette out of range renders JavaScript `undefined`. -/
def rectString (c : Cell) : String :=
  "<rect x=\"" ++ toString c.x ++ "\" y=\"" ++ toString c.y ++ "\" width=\""
    ++ toString cell ++ "\" height=\"" ++ toString cell
    ++ "\" rx=\"2\" ry=\"2\" fill=\"" ++ palette.getD c.lvl "undefined"
    ++ "\">\n        <title>" ++ toString c.date ++ ": " ++ toString c.lvl
    ++ "</title>\n      </rect>"

/-- The `<rect>` markup of one cell in the richer variant; tooltip shows the
pluralized count. -/
def rectStringRich (c : Cell) : String :=
  "<rect x=\"" ++ toString c.x ++ "\" y=\"" ++ toString c.y ++ "\" width=\""
    ++ toString cell ++ "\" height=\"" ++ toString cell
    ++ "\" rx=\"2\" ry=\"2\" fill=\"" ++ palette.getD c.lvl "undefined"
    ++ "\">\n        <title>" ++ toString c.date ++ ": " ++ toString c.cnt
    ++ " contribution" ++ (if c.cnt = 1 then "" else "s")
    ++ "</title>\n      </rect>"

/-- `renderSVG(levels)` of the plain variant: the complete document string. -/
def renderSVG (levels : List (Int × Nat)) (f t : Int) : String :=
  let w := weeks f t
  let width : Int := w * ((cell : Int) + (gap : Int)) + (gap : Int)
  let height : Int := 7 * ((cell : Int) + (gap : Int)) + (gap : Int)
  let rects := String.join ((renderCells levels f t).map rectString)
  "<?xml version=\"1.0\" encoding=\"UTF-8\"?>\n<svg width=\"" ++ toString width
    ++ "\" height=\"" ++ toString height ++ "\" viewBox=\"0 0 " ++ toString width
    ++ " " ++ toString height
    ++ "\" xmlns=\"http://www.w3.org/2000/svg\" role=\"img\" aria-label=\"Combined contributions\">\n  <title>Combined GitHub + GitLab Contributions (last 365 days)</title>\n  <rect width=\"100%\" height=\"100%\" fill=\"#fff\"/>\n  "
    ++ rects ++ "\n</svg>"

/-- The totals record the richer driver builds before rendering. -/
structure Totals where
  gh : Nat
  gl : Nat
  total : Nat

/-- `renderSVG(levels, counts, totals)` of the richer variant: header label,
date-range label, then the grid. -/
def renderSVGRich (levels counts : List (Int × Nat)) (totals : Totals)
    (f t : Int) : String :=
  let w := weeks f t
  let width : Int := w * ((cell : Int) + (gap : Int)) + (gap : Int)
  let height : Int := (headerH : Int) + 7 * ((cell : Int) + (gap : Int)) + (gap : Int)
  let rects := String.join ((renderCellsRich levels counts f t).map rectStringRich)
  let label := "Total: " ++ toString totals.total ++ " (GH " ++ toString totals.gh
    ++ " • GL " ++ toString totals.gl ++ ")"
  let dateRange := toString f ++ " → " ++ toString t
  "<?xml version=\"1.0\" encoding=\"UTF-8\"?>\n<svg width=\"" ++ toString width
    ++ "\" height=\"" ++ toString height ++ "\" viewBox=\"0 0 " ++ toString width
    ++ " " ++ toString height
    ++ "\" xmlns=\"http://www.w3.org/2000/svg\" role=\"img\" aria-label=\"Combined contributions\">\n  <title>Combined GitHub + GitLab Contributions (last 365 days)</title>\n  <rect width=\"100%\" height=\"100%\" fill=\"#fff\"/>\n  <text x=\""
    ++ toString gap
    ++ "\" y=\"16\" font-family=\"system-ui,-apple-system,Segoe UI,Roboto,Ubuntu,Cantarell,Noto Sans,sans-serif\" font-size=\"12\" fill=\"#24292f\">"
    ++ label ++ "</text>\n  <text x=\"" ++ toString (width - (gap : Int))
    ++ "\" y=\"16\" text-anchor=\"end\" font-family=\"system-ui,-apple-system,Segoe UI,Roboto,Ubuntu,Cantarell,Noto Sans,sans-serif\" font-size=\"11\" fill=\"#57606a\">"
    ++ dateRange ++ "</text>\n  " ++ rects ++ "\n</svg>"

/-- C5: the renderer's grid start is the Sunday on or before the window
start, its grid end is the Saturday on or after today, the cell loops of
both variants emit exactly weeks × 7 rectangles with
`weeks = ceil((gridEnd − gridStart) / 7) + 1`, and any cell whose date has
no entry in the levels map is rendered with level 0. -/
theorem renderSVG_grid (levels counts : List (Int × Nat)) (f t : Int)
    (h : f ≤ t) :
    (dow (gridStart f) = 0 ∧ gridStart f ≤ f ∧ f - gridStart f < 7) ∧
    (dow (gridEnd t) = 6 ∧ t ≤ gridEnd t ∧ gridEnd t - t < 7) ∧
    (1 ≤ weeks f t ∧
      (renderCells levels f t).length = (weeks f t).toNat * 7 ∧
      (renderCellsRich levels counts f t).length = (weeks f t).toNat * 7) ∧
    (∀ c ∈ renderCells levels f t, toMap levels c.date = none → c.lvl = 0) ∧
    (∀ c ∈ renderCellsRich levels counts f t,
      toMap levels c.date = none → c.lvl = 0) := by
  refine ⟨?_, ?_, ⟨?_, ?_, ?_⟩, ?_, ?_⟩
  · simp only [gridStart, dow]
    omega
  · simp only [gridEnd, dow]
    omega
  · rw [weeks_eq]
    simp only [gridStart, gridEnd, dow]
    omega
  · simp [renderCells]
  · simp [renderCellsRich]
  · intro c hc
    simp only [renderCells, List.mem_map] at hc
    obtain ⟨i, _, rfl⟩ := hc
    intro hnone
    simp only at hnone ⊢
    rw [hnone]
    rfl
  · intro c hc
    simp only [renderCellsRich, List.mem_map] at hc
    obtain ⟨i, _, rfl⟩ := hc
    intro hnone
    simp only at hnone ⊢
    rw [hnone]
    rfl

theorem renderSVG_grid_witness :
    (0 : Int) ≤ 364 ∧
    ((dow (gridStart 0) = 0 ∧ gridStart 0 ≤ 0 ∧ (0 : Int) - gridStart 0 < 7) ∧
      (dow (gridEnd 364) = 6 ∧ (364 : Int) ≤ gridEnd 364 ∧ gridEnd 364 - 364 < 7) ∧
      (1 ≤ weeks 0 364 ∧
        (renderCells sampleValues 0 364).length = (weeks 0 364).toNat * 7 ∧
        (renderCellsRich sampleValues sampleValues 0 364).length
          = (weeks 0 364).toNat * 7) ∧
      (∀ c ∈ renderCells sampleValues 0 364,
        toMap sampleValues c.date = none → c.lvl = 0) ∧
      (∀ c ∈ renderCellsRich sampleValues sampleValues 0 364,
        toMap sampleValues c.date = none → c.lvl = 0)) :=
  ⟨by decide, renderSVG_grid sampleValues sampleValues 0 364 (by decide)⟩

/-- C9: both renderer variants are deterministic total functions of their
inputs: input maps that agree pointwise yield character-for-character
identical documents, and a date missing from the levels (counts) map is
rendered with level 0 (count 0) rather than failing. -/
theorem renderSVG_deterministic (l1 l2 c1 c2 : List (Int × Nat)) (tot : Totals)
    (f t : Int) (hl : ∀ d : Int, toMap l1 d = toMap l2 d)
    (hc : ∀ d : Int, toMap c1 d = toMap c2 d) :
    renderSVGRich l1 c1 tot f t = renderSVGRich l2 c2 tot f t ∧
    renderSVG l1 f t = renderSVG l2 f t ∧
    (∀ c ∈ renderCellsRich l1 c1 f t,
      (toMap l1 c.date = none → c.lvl = 0) ∧
      (toMap c1 c.date = none → c.cnt = 0)) := by
  have hl' : toMap l1 = toMap l2 := funext hl
  have hc' : toMap c1 = toMap c2 := funext hc
  have hcellsR : renderCellsRich l1 c1 f t = renderCellsRich l2 c2 f t := by
    simp only [renderCellsRich]
    rw [hl', hc']
  have hcells : renderCells l1 f t = renderCells l2 f t := by
    simp only [renderCells]
    rw [hl']
  refine ⟨?_, ?_, ?_⟩
  · simp only [renderSVGRich]
    rw [hcellsR]
  · simp only [renderSVG]
    rw [hcells]
  · intro c hcm
    simp only [renderCellsRich, List.mem_map] at hcm
    obtain ⟨i, _, rfl⟩ := hcm
    constructor
    · intro hnone
      simp only at hnone ⊢
      rw [hnone]
      rfl
    · intro hnone
      simp only at hnone ⊢
      rw [hnone]
      rfl

theorem renderSVG_deterministic_witness :
    ((∀ d : Int, toMap sampleValues d = toMap sampleValues d) ∧
      (∀ d : Int, toMap sampleBase d = toMap sampleBase d)) ∧
    (renderSVGRich sampleValues sampleBase ⟨0, 0, 0⟩ 0 364
        = renderSVGRich sampleValues sampleBase ⟨0, 0, 0⟩ 0 364 ∧
      renderSVG sampleValues 0 364 = renderSVG sampleValues 0 364 ∧
      (∀ c ∈ renderCellsRich sampleValues sampleBase 0 364,
        (toMap sampleValues c.date = none → c.lvl = 0) ∧
        (toMap sampleBase c.date = none → c.cnt = 0))) :=
  ⟨⟨fun _ => rfl, fun _ => rfl⟩,
    renderSVG_deterministic sampleValues sampleValues sampleBase sampleBase
      ⟨0, 0, 0⟩ 0 364 (fun _ => rfl) (fun _ => rfl)⟩

/-- The GitHub fetcher's view of its HTTP response: the fields the status
check reads, plus the parsed GraphQL payload
(`json?.data?.user?.contributionsCollection?.contributionCalendar?.weeks`,
`none` when the optional chain is nullish and `|| []` applies); each day
entry is a date with its `contributionCount || 0`. -/
structure GhResponse where
  ok : Bool
  status : Nat
  text : String
  calendarWeeks : Option (List (List (Int × Nat)))

/-- The GitLab fetcher's view of its HTTP response: status-check fields plus
the parsed JSON body (`none` when nullish, then `|| {}` applies). -/
structure GlResponse where
  ok : Bool
  status : Nat
  text : String
  json : Option (List (Int × Nat))

/-- `out[d.date] = (out[d.date] || 0) + (d.contributionCount || 0)`: add to
an existing key, or append a fresh key at the end (JavaScript property
insertion order). -/
def upsert : List (Int × Nat) → Int → Nat → List (Int × Nat)
  | [], k, c => [(k, c)]
  | (k', c') :: rest, k, c =>
    if k' = k then (k', c' + c) :: rest else (k', c') :: upsert rest k c

/-- The GitHub fetcher's flattening loop over `weeks`/`contributionDays`. -/
def flattenWeeks (ws : List (List (Int × Nat))) : List (Int × Nat) :=
  ws.foldl (fun out w => w.foldl (fun out d => upsert out d.1 d.2) out) []

/-- `fetchGitHubCalendar`: throw on a non-success response
(`GitHub GraphQL error: ${res.status} ${text}`), else flatten the calendar
weeks into a date → count map. -/
def fetchGitHubCalendar (res : GhResponse) : Except String (List (Int × Nat)) :=
  if !res.ok then
    Except.error ("GitHub GraphQL error: " ++ toString res.status ++ " " ++ res.text)
  else
    Except.ok (flattenWeeks (res.calendarWeeks.getD []))

/-- `fetchGitLabCalendar`: throw on a non-success response
(`GitLab calendar error: ${res.status} ${text}`), else return the JSON map
as-is (empty when the body was nullish). -/
def fetchGitLabCalendar (res : GlResponse) : Except String (List (Int × Nat)) :=
  if !res.ok then
    Except.error ("GitLab calendar error: " ++ toString res.status ++ " " ++ res.text)
  else
    Except.ok (res.json.getD [])

/-- `sum(obj) = Object.values(obj).reduce((a, b) => a + (b || 0), 0)`. -/
def sumCounts (obj : List (Int × Nat)) : Nat := (obj.map Prod.snd).sum

/-- The driver body once both fetches have resolved (richer variant): build
the zeroed range, merge, classify, total, render. -/
def buildSvg (ghMap glMap : List (Int × Nat)) (f t : Int) : String :=
  let base := dateRangeMap f t
  let merged := mergeCalendars base ghMap glMap
  let levels := computeLevels merged
  let totals : Totals := ⟨sumCounts ghMap, sumCounts glMap, sumCounts merged⟩
  renderSVGRich levels merged totals f t

/-- Observable outcome of one run of the script: the process exit code, the
content written to `public/contrib.svg` (none when the write was never
reached), and the error logged by the top-level `catch` (if any). -/
structure RunOutcome where
  exitCode : Nat
  written : Option String
  logged : Option String

/-- The driver: await both fetches (`Promise.all` surfaces the rejection;
when a single fetch fails the surfaced error is that fetch's error), then
merge → classify → render → write.  A thrown error reaches the `catch`,
which logs it and exits 1; the file write is the last step, so nothing is
written on failure. -/
def runMain (ghRes : GhResponse) (glRes : GlResponse) (f t : Int) : RunOutcome :=
  match fetchGitHubCalendar ghRes with
  | Except.error e => ⟨1, none, some e⟩
  | Except.ok ghMap =>
    match fetchGitLabCalendar glRes with
    | Except.error e => ⟨1, none, some e⟩
    | Except.ok glMap => ⟨0, some (buildSvg ghMap glMap f t), none⟩

/-- C7: each fetcher throws exactly when its HTTP response is non-success
(`res.ok` false), the thrown message carries both the status code and the
response body, and a success response passes the status check without
throwing. -/
theorem fetchers_error_iff (gh : GhResponse) (gl : GlResponse) :
    ((∃ m, fetchGitHubCalendar gh = Except.error m) ↔ gh.ok = false) ∧
    (gh.ok = false →
      fetchGitHubCalendar gh
        = Except.error
            ("GitHub GraphQL error: " ++ toString gh.status ++ " " ++ gh.text)) ∧
    (gh.ok = false →
      ∃ m, fetchGitHubCalendar gh = Except.error m ∧
        (∃ a b, m = a ++ toString gh.status ++ b) ∧
        (∃ a b, m = a ++ gh.text ++ b)) ∧
    ((∃ m, fetchGitLabCalendar gl = Except.error m) ↔ gl.ok = false) ∧
    (gl.ok = false →
      fetchGitLabCalendar gl
        = Except.error
            ("GitLab calendar error: " ++ toString gl.status ++ " " ++ gl.text)) ∧
    (gl.ok = false →
      ∃ m, fetchGitLabCalendar gl = Except.error m ∧
        (∃ a b, m = a ++ toString gl.status ++ b) ∧
        (∃ a b, m = a ++ gl.text ++ b)) := by
  refine ⟨?_, ?_, ?_, ?_, ?_, ?_⟩
  · cases hok : gh.ok <;> simp [fetchGitHubCalendar, hok]
  · intro hok
    simp [fetchGitHubCalendar, hok]
  · intro hok
    refine ⟨"GitHub GraphQL error: " ++ toString gh.status ++ " " ++ gh.text,
      by simp [fetchGitHubCalendar, hok], ⟨"GitHub GraphQL error: ",
        " " ++ gh.text, by simp [String.append_assoc]⟩,
      ⟨"GitHub GraphQL error: " ++ toString gh.status ++ " ", "",
        by simp [String.append_assoc]⟩⟩
  · cases hok : gl.ok <;> simp [fetchGitLabCalendar, hok]
  · intro hok
    simp [fetchGitLabCalendar, hok]
  · intro hok
    refine ⟨"GitLab calendar error: " ++ toString gl.status ++ " " ++ gl.text,
      by simp [fetchGitLabCalendar, hok], ⟨"GitLab calendar error: ",
        " " ++ gl.text, by simp [String.append_assoc]⟩,
      ⟨"GitLab calendar error: " ++ toString gl.status ++ " ", "",
        by simp [String.append_assoc]⟩⟩

/-- A non-success GitHub response (HTTP 403) and healthy companions, used to
witness the error-path theorems. -/
def sampleGh403 : GhResponse := ⟨false, 403, "Forbidden", none⟩

def sampleGl500 : GlResponse := ⟨false, 500, "Server Error", none⟩

def sampleGlOk : GlResponse := ⟨true, 200, "", some [(0, 1)]⟩

theorem fetchers_error_iff_witness :
    (sampleGh403.ok = false ∧ sampleGl500.ok = false) ∧
    (fetchGitHubCalendar sampleGh403
        = Except.error ("GitHub GraphQL error: " ++ toString sampleGh403.status
            ++ " " ++ sampleGh403.text) ∧
      fetchGitLabCalendar sampleGl500
        = Except.error ("GitLab calendar error: " ++ toString sampleGl500.status
            ++ " " ++ sampleGl500.text)) :=
  ⟨⟨rfl, rfl⟩,
    (fetchers_error_iff sampleGh403 sampleGl500).2.1 rfl,
    (fetchers_error_iff sampleGh403 sampleGl500).2.2.2.2.1 rfl⟩

/-- C6: when a pipeline stage fails, the driver logs the error and exits
with status 1, and `public/contrib.svg` is never written (the write is the
last step); in particular a GitHub HTTP 403 yields exit status 1, no written
file, and a logged message containing "403".  When every stage succeeds the
driver exits 0 and writes the rendered document. -/
theorem pipeline_failfast (ghRes : GhResponse) (glRes : GlResponse) (f t : Int) :
    (∀ e, fetchGitHubCalendar ghRes = Except.error e →
      runMain ghRes glRes f t = ⟨1, none, some e⟩) ∧
    (∀ ghMap e, fetchGitHubCalendar ghRes = Except.ok ghMap →
      fetchGitLabCalendar glRes = Except.error e →
      runMain ghRes glRes f t = ⟨1, none, some e⟩) ∧
    (ghRes.ok = false → ghRes.status = 403 →
      (runMain ghRes glRes f t).exitCode = 1 ∧
      (runMain ghRes glRes f t).written = none ∧
      ∃ a b, (runMain ghRes glRes f t).logged = some (a ++ "403" ++ b)) ∧
    (∀ ghMap glMap, fetchGitHubCalendar ghRes = Except.ok ghMap →
      fetchGitLabCalendar glRes = Except.ok glMap →
      runMain ghRes glRes f t = ⟨0, some (buildSvg ghMap glMap f t), none⟩) := by
  refine ⟨?_, ?_, ?_, ?_⟩
  · intro e he
    simp [runMain, he]
  · intro ghMap e hgh hgl
    simp [runMain, hgh, hgl]
  · intro hok hstatus
    have herr : fetchGitHubCalendar ghRes
        = Except.error ("GitHub GraphQL error: " ++ toString ghRes.status
            ++ " " ++ ghRes.text) := by
      simp [fetchGitHubCalendar, hok]
    refine ⟨by simp [runMain, herr], by simp [runMain, herr],
      "GitHub GraphQL error: ", " " ++ ghRes.text, ?_⟩
    simp only [runMain, herr]
    rw [hstatus]
    rfl
  · intro ghMap glMap hgh hgl
    simp [runMain, hgh, hgl]

theorem pipeline_failfast_witness :
    (sampleGh403.ok = false ∧ sampleGh403.status = 403) ∧
    ((runMain sampleGh403 sampleGlOk 0 364).exitCode = 1 ∧
      (runMain sampleGh403 sampleGlOk 0 364).written = none ∧
      ∃ a b, (runMain sampleGh403 sampleGlOk 0 364).logged
        = some (a ++ "403" ++ b)) :=
  ⟨⟨rfl, rfl⟩, (pipeline_failfast sampleGh403 sampleGlOk 0 364).2.2.1 rfl rfl⟩
